import Mathlib

/-!
Verification of the audio-calibrator core (level analyzer, calibration
session, parameter derivation) of the OBS plugin in this repository.

The analyzer (`src/src/audio-analyzer.{hpp,cpp}`) is embedded over the
exact reals: machine `float`/`double` arithmetic is idealized as `ℝ`, and
`std::log10` / `std::pow(10, _)` become `Real.logb 10` / real `rpow`.
The calibration dialog state machine (the 8-step revision,
`src/unnamed/part_000` together with its header constants
`RECORDING_DURATION_MS = 5000`, `RECORDING_TICK_MS = 100`,
`TOTAL_STEPS = 8`) is embedded parametrically over a linear ordered
field, so that control-flow claims can be evaluated at `ℚ` while the
decibel-math claims are settled at `ℝ`.

UI-only effects (labels, meters, logging, JSON persistence) carry no
session state; the status line reported by `saveCurrentLevel` is modelled
as an explicit report value, and the analyzer readings sampled by the
dialog are passed in as an environment record.
-/

namespace AudioAnalyzer

/-- Source `AudioAnalyzer::toDB`: `-100` below the `1e-5` linear floor, else
`20 * log10 amplitude`. -/
noncomputable def toDB (amplitude : ℝ) : ℝ :=
  if amplitude < 1e-5 then -100 else 20 * Real.logb 10 amplitude

/-- Source `AudioAnalyzer::fromDB`: `10 ^ (db / 20)`. -/
noncomputable def fromDB (db : ℝ) : ℝ :=
  (10 : ℝ) ^ (db / 20)

/-- Source `SMOOTHING_FACTOR` from `audio-analyzer.hpp`. -/
def SMOOTHING_FACTOR : ℝ := 0.1

/-- The scalar state published by `AudioAnalyzer` (the atomics plus the
smoothing accumulator); `currentRMS` and `currentPeak` hold decibel
values. -/
structure AnalyzerState where
  capturing : Bool
  currentRMS : ℝ
  currentPeak : ℝ
  maxPeak : ℝ
  smoothedRMS : ℝ

/-- The member initializers of `AudioAnalyzer`. -/
def AnalyzerState.init : AnalyzerState :=
  { capturing := false, currentRMS := 0, currentPeak := -100,
    maxPeak := -100, smoothedRMS := 0 }

/-- One delivered `audio_data` block: a frame count and the first channel
pointer (`none` models a null `data[0]`). -/
structure AudioData where
  frames : Nat
  data0 : Option (List ℝ)

/-- Source `AudioAnalyzer::calculateRMS`: returns `0` when the count is zero or
the pointer is null, else `sqrt(mean of squares)` over the first `count`
samples. -/
noncomputable def calculateRMS (samples : Option (List ℝ)) (count : Nat) : ℝ :=
  if count == 0 || samples.isNone then 0
  else
    match samples with
    | none => 0
    | some l => Real.sqrt ((((l.take count).map (fun s => s * s)).sum) / count)

/-- Source `AudioAnalyzer::processAudio`: guarded update of the published
scalars from one buffer. -/
noncomputable def processAudio (st : AnalyzerState) (audioData : Option AudioData)
    (muted : Bool) : AnalyzerState :=
  if !st.capturing || muted || audioData.isNone then st
  else
    match audioData with
    | none => st
    | some d =>
      if d.frames == 0 || d.data0.isNone then st
      else
        let samples := (d.data0.getD []).take d.frames
        let rms := calculateRMS d.data0 d.frames
        let peak := samples.foldl (fun p s => max p |s|) 0
        let smoothed := st.smoothedRMS * (1 - SMOOTHING_FACTOR) + rms * SMOOTHING_FACTOR
        let rmsDB := toDB smoothed
        let peakDB := toDB peak
        { st with
          smoothedRMS := smoothed, currentRMS := rmsDB, currentPeak := peakDB,
          maxPeak := if st.maxPeak < peakDB then peakDB else st.maxPeak }

/-- Source `AudioAnalyzer::stopCapture`: unbinds and clears the capturing flag. -/
def stopCapture (st : AnalyzerState) : AnalyzerState :=
  { st with capturing := false }

/-- Source `AudioAnalyzer::startCapture`: fails on an invalid source; otherwise
stops any prior capture, resets the level state (`currentRMS := 0.0`,
`currentPeak := -100.0`, `smoothedRMS := 0.0` — exactly as the source
writes them) and starts capturing. -/
def startCapture (st : AnalyzerState) (sourceValid : Bool) : Bool × AnalyzerState :=
  if sourceValid = false then (false, st)
  else
    let st' := stopCapture st
    (true, { st' with
             capturing := true, currentRMS := 0, currentPeak := -100,
             smoothedRMS := 0 })

/-- Source `AudioAnalyzer::resetMaxPeak`: stores `-100` into the max-peak
tracker and touches nothing else. -/
def resetMaxPeak (st : AnalyzerState) : AnalyzerState :=
  { st with maxPeak := -100 }

end AudioAnalyzer

open AudioAnalyzer

/-- Claim C5 (code divergence): after a successful `startCapture` and
before any buffer, the smoothed RMS state is reset, but the published
RMS reads `0.0` dB (full scale), not the `-100.0` floor the spec
requires; only the peak reads `-100.0`. -/
theorem startCapture_publishes_zero_rms (st : AnalyzerState) :
    (startCapture st true).1 = true ∧
    (startCapture st true).2.smoothedRMS = 0 ∧
    (startCapture st true).2.currentRMS = 0 ∧
    (startCapture st true).2.currentPeak = -100 ∧
    (0 : ℝ) ≠ -100 := by
  refine ⟨rfl, rfl, rfl, rfl, by norm_num⟩

/-- Claim C7: `maxPeak` never decreases across `processAudio` updates
(single steps and any finite sequence of deliveries), while
`resetMaxPeak` forces it back to `-100` and leaves the published RMS,
peak, smoothing state and capturing flag untouched. -/
theorem maxPeak_monotone_and_reset :
    (∀ (st : AnalyzerState) (ad : Option AudioData) (muted : Bool),
      st.maxPeak ≤ (processAudio st ad muted).maxPeak) ∧
    (∀ (st : AnalyzerState) (bufs : List (Option AudioData × Bool)),
      st.maxPeak ≤ (bufs.foldl (fun s b => processAudio s b.1 b.2) st).maxPeak) ∧
    (∀ st : AnalyzerState,
      (resetMaxPeak st).maxPeak = -100 ∧
      (resetMaxPeak st).currentRMS = st.currentRMS ∧
      (resetMaxPeak st).currentPeak = st.currentPeak ∧
      (resetMaxPeak st).smoothedRMS = st.smoothedRMS ∧
      (resetMaxPeak st).capturing = st.capturing) := by
  have hstep : ∀ (st : AnalyzerState) (ad : Option AudioData) (muted : Bool),
      st.maxPeak ≤ (processAudio st ad muted).maxPeak := by
    intro st ad muted
    unfold processAudio
    split
    · exact le_refl _
    · match ad with
      | none => exact le_refl _
      | some d =>
        dsimp only
        split
        · exact le_refl _
        · dsimp only
          split
          · exact le_of_lt (by assumption)
          · exact le_refl _
  refine ⟨hstep, ?_, fun st => ⟨rfl, rfl, rfl, rfl, rfl⟩⟩
  intro st bufs
  induction bufs generalizing st with
  | nil => exact le_refl _
  | cons b bs ih =>
    exact le_trans (hstep st b.1 b.2) (ih (processAudio st b.1 b.2))

/-- Claim C10: `calculateRMS` is total — it returns `0` for a zero count
or a null pointer, the mean-of-squares division only ever happens with a
nonzero divisor, and `processAudio` leaves the state untouched on a null
or empty buffer. -/
theorem calculateRMS_total :
    (∀ count : Nat, calculateRMS none count = 0) ∧
    (∀ l : List ℝ, calculateRMS (some l) 0 = 0) ∧
    (∀ (l : List ℝ) (count : Nat), count ≠ 0 →
      ((count : ℝ) ≠ 0 ∧
       calculateRMS (some l) count =
         Real.sqrt ((((l.take count).map (fun s => s * s)).sum) / count))) ∧
    (∀ (st : AnalyzerState) (muted : Bool) (d : AudioData),
      d.frames = 0 ∨ d.data0 = none → processAudio st (some d) muted = st) ∧
    (∀ (st : AnalyzerState) (muted : Bool), processAudio st none muted = st) := by
  refine ⟨?_, ?_, ?_, ?_, ?_⟩
  · intro count
    unfold calculateRMS
    simp
  · intro l
    unfold calculateRMS
    simp
  · intro l count hc
    refine ⟨by exact_mod_cast hc, ?_⟩
    unfold calculateRMS
    simp [hc]
  · intro st muted d hd
    unfold processAudio
    split
    · rfl
    · dsimp only
      split
      · rfl
      · rename_i hguard
        exfalso
        rcases hd with h | h
        · exact hguard (by simp [h])
        · exact hguard (by simp [h])
  · intro st muted
    unfold processAudio
    simp

/-- Witness for C10 at concrete inputs: a null pointer with count 4, an
empty list with count 0, a nonzero count 3, and an empty delivered
buffer. -/
theorem calculateRMS_total_witness :
    calculateRMS none 4 = 0 ∧
    calculateRMS (some ([] : List ℝ)) 0 = 0 ∧
    ((3 : ℝ) ≠ 0) ∧
    processAudio AnalyzerState.init (some ⟨0, some []⟩) false = AnalyzerState.init := by
  refine ⟨calculateRMS_total.1 4, calculateRMS_total.2.1 [], ?_, ?_⟩
  · exact (calculateRMS_total.2.2.1 [1, 2] 3 (by norm_num)).1
  · exact calculateRMS_total.2.2.2.1 AnalyzerState.init false ⟨0, some []⟩ (Or.inl rfl)

namespace CalibrationDialog

/-- Source `RECORDING_DURATION_MS` from the 8-step `calibration-dialog.hpp`. -/
def RECORDING_DURATION_MS : Nat := 5000

/-- Source `RECORDING_TICK_MS` from the 8-step `calibration-dialog.hpp`. -/
def RECORDING_TICK_MS : Nat := 100

/-- Source `TOTAL_STEPS` from the 8-step `calibration-dialog.hpp`. -/
def TOTAL_STEPS : Nat := 8

/-- The calibration-session state of `CalibrationDialog` (the 8-step
revision): step counter, recording flag, the two per-step arrays, the
recording-window accumulators, and the three button-enabled flags. The
field type `F` is the idealization of `float`/`double` arithmetic; the
claims are settled at `F := ℚ` (control flow) and `F := ℝ` (decibel
math). -/
structure CalibState (F : Type) where
  currentStep : Nat
  isRecording : Bool
  levels : Fin 8 → F
  peaks : Fin 8 → F
  recordingElapsedMs : Nat
  recordingRmsSumLinear : F
  recordingRmsSamples : Nat
  recordingPeakMaxDb : F
  startEnabled : Bool
  recordEnabled : Bool
  applyEnabled : Bool

/-- The analyzer readings the dialog samples during one handler call
(`isCapturing`, `getCurrentRMS`, `getCurrentPeak`, `getMaxPeak`). -/
structure AnalyzerEnv (F : Type) where
  capturing : Bool
  rmsDb : F
  peakDb : F
  maxPeakDb : F

variable {F : Type} [LinearOrderedField F]

/-- Write `levels[i] = v` for a C-style index; an out-of-range write is
undefined behaviour in the source and is modelled as a no-op (every
caller is guarded by `1 <= currentStep <= TOTAL_STEPS`). -/
def updateAt (f : Fin 8 → F) (i : Nat) (v : F) : Fin 8 → F :=
  if h : i < 8 then Function.update f ⟨i, h⟩ v else f

/-- Read `levels[i]` for a C-style index (same convention as
`updateAt`). -/
def getAt (f : Fin 8 → F) (i : Nat) : F :=
  if h : i < 8 then f ⟨i, h⟩ else 0

/-- Source `CalibrationDialog::advanceStep`. -/
def advanceStep (st : CalibState F) : CalibState F :=
  if st.currentStep < 1 then st
  else if TOTAL_STEPS ≤ st.currentStep then
    { st with
      currentStep := TOTAL_STEPS + 1, recordEnabled := false, applyEnabled := true }
  else { st with currentStep := st.currentStep + 1 }

/-- Source `CalibrationDialog::saveCurrentLevel`: it only formats a status
message; the pair it reports is `(levels[index], peaks[index])` with the
analyzer's `getMaxPeak()` substituted when the stored peak still holds
the sentinel. It writes nothing back into the arrays. -/
def saveCurrentLevelReport (env : AnalyzerEnv F) (st : CalibState F) : Option (F × F) :=
  if st.currentStep < 1 ∨ TOTAL_STEPS < st.currentStep then none
  else
    let index := st.currentStep - 1
    let avgRms := getAt st.levels index
    let maxPeak := getAt st.peaks index
    some (avgRms, if maxPeak ≤ -99 then env.maxPeakDb else maxPeak)

/-- Source `CalibrationDialog::stopRecording`: clears the recording flag, emits
the save report (no state effect), and advances the step. -/
def stopRecording (env : AnalyzerEnv F) (st : CalibState F) : CalibState F :=
  if st.isRecording = false then st
  else advanceStep { st with isRecording := false }

/-- Source `CalibrationDialog::onRecordingTick`: advances elapsed time by one
tick (clamped to the duration), accumulates the analyzer readings into
the linear-domain running average and the running peak maximum, rewrites
`levels[currentStep-1]`/`peaks[currentStep-1]`, and forces a stop once
the duration is reached. -/
def onRecordingTick (fromDb toDb : F → F) (env : AnalyzerEnv F) (st : CalibState F) :
    CalibState F :=
  if st.isRecording = false then st
  else
    let st1 := { st with
      recordingElapsedMs := min (st.recordingElapsedMs + RECORDING_TICK_MS) RECORDING_DURATION_MS }
    let st2 :=
      if env.capturing then
        let sumLinear := st1.recordingRmsSumLinear + fromDb env.rmsDb
        let samples : Nat := st1.recordingRmsSamples + 1
        let peakMax := max st1.recordingPeakMaxDb env.peakDb
        let avgLinear := if 0 < samples then sumLinear / (samples : F) else 0
        { st1 with
          recordingRmsSumLinear := sumLinear,
          recordingRmsSamples := samples,
          recordingPeakMaxDb := peakMax,
          levels := updateAt st1.levels (st1.currentStep - 1) (toDb avgLinear),
          peaks := updateAt st1.peaks (st1.currentStep - 1) peakMax }
      else st1
    if RECORDING_DURATION_MS ≤ st2.recordingElapsedMs then stopRecording env st2 else st2

/-- Source `CalibrationDialog::startRecording`: refuses when capture is not
active; otherwise arms the recording window (zeroed accumulators,
sentinel step entries, `resetMaxPeak` on the analyzer) and runs one
immediate tick before the timer starts. -/
def startRecording (fromDb toDb : F → F) (env : AnalyzerEnv F) (st : CalibState F) :
    CalibState F :=
  if env.capturing = false then st
  else
    let st1 := { st with
      isRecording := true,
      recordingElapsedMs := 0,
      recordingRmsSumLinear := 0,
      recordingRmsSamples := 0,
      recordingPeakMaxDb := -100,
      levels := updateAt st.levels (st.currentStep - 1) (-100),
      peaks := updateAt st.peaks (st.currentStep - 1) (-100) }
    onRecordingTick fromDb toDb env st1

/-- Source `CalibrationDialog::onRecordClicked`: outside an active session it
only reports a status message; during recording it acts as Stop;
otherwise it starts recording. -/
def onRecordClicked (fromDb toDb : F → F) (env : AnalyzerEnv F) (st : CalibState F) :
    CalibState F :=
  if st.currentStep = 0 ∨ TOTAL_STEPS < st.currentStep then st
  else if st.isRecording then stopRecording env st
  else startRecording fromDb toDb env st

/-- Source `CalibrationDialog::onStartClicked`: with a source selected, enters
step 1 and clears both arrays to the sentinel. -/
def onStartClicked (sourceSelected : Bool) (st : CalibState F) : CalibState F :=
  if sourceSelected = false then st
  else { st with
    currentStep := 1, startEnabled := false, recordEnabled := true, applyEnabled := false,
    levels := fun _ => -100, peaks := fun _ => -100 }

/-- Source `CalibrationDialog::onResetClicked`: stops an active recording, then
returns to the idle state with both arrays cleared and only Start
enabled. -/
def onResetClicked (env : AnalyzerEnv F) (st : CalibState F) : CalibState F :=
  let st1 := if st.isRecording then stopRecording env st else st
  { st1 with
    currentStep := 0, startEnabled := true, recordEnabled := false, applyEnabled := false,
    levels := fun _ => -100, peaks := fun _ => -100 }

end CalibrationDialog

namespace CalibrationDialog

variable {F : Type} [LinearOrderedField F]

/-- Source `advanceStep` never touches the recording flag. -/
theorem advanceStep_isRecording (st : CalibState F) :
    (advanceStep st).isRecording = st.isRecording := by
  unfold advanceStep
  split_ifs <;> rfl

/-- Source `advanceStep` never touches the level array. -/
theorem advanceStep_levels (st : CalibState F) :
    (advanceStep st).levels = st.levels := by
  unfold advanceStep
  split_ifs <;> rfl

/-- Source `advanceStep` never touches the peak array. -/
theorem advanceStep_peaks (st : CalibState F) :
    (advanceStep st).peaks = st.peaks := by
  unfold advanceStep
  split_ifs <;> rfl

/-- Source `advanceStep` never touches the elapsed-time counter. -/
theorem advanceStep_elapsed (st : CalibState F) :
    (advanceStep st).recordingElapsedMs = st.recordingElapsedMs := by
  unfold advanceStep
  split_ifs <;> rfl

/-- Source `stopRecording` always leaves the recording flag cleared when it was
set. -/
theorem stopRecording_isRecording (env : AnalyzerEnv F) (st : CalibState F)
    (h : st.isRecording = true) : (stopRecording env st).isRecording = false := by
  unfold stopRecording
  rw [h]
  simpa using advanceStep_isRecording { st with isRecording := false }

/-- Source `stopRecording` never touches the elapsed-time counter. -/
theorem stopRecording_elapsed (env : AnalyzerEnv F) (st : CalibState F) :
    (stopRecording env st).recordingElapsedMs = st.recordingElapsedMs := by
  unfold stopRecording
  split_ifs with h
  · rfl
  · simpa using advanceStep_elapsed { st with isRecording := false }

/-- The analyzer readings used by the concrete instantiations below:
capture active, RMS `-30` dB, peak `-25` dB, running max peak `-20` dB. -/
def qEnv : AnalyzerEnv ℚ :=
  { capturing := true, rmsDb := -30, peakDb := -25, maxPeakDb := -20 }

/-- An idle session (`currentStep = 0`), nothing recorded. -/
def idleState : CalibState ℚ :=
  { currentStep := 0, isRecording := false, levels := fun _ => -100,
    peaks := fun _ => -100, recordingElapsedMs := 0, recordingRmsSumLinear := 0,
    recordingRmsSamples := 0, recordingPeakMaxDb := -100, startEnabled := true,
    recordEnabled := false, applyEnabled := false }

/-- A session in the middle of recording step 3; the running tick
average for the step is `-37` dB, the stored step peak still holds the
sentinel. -/
def recordingState : CalibState ℚ :=
  { currentStep := 3, isRecording := true,
    levels := fun i => if i.val = 2 then -37 else -100, peaks := fun _ => -100,
    recordingElapsedMs := 1000, recordingRmsSumLinear := 0, recordingRmsSamples := 0,
    recordingPeakMaxDb := -100, startEnabled := false, recordEnabled := true,
    applyEnabled := false }

/-- Claim C9: Reset is accepted from every state — whatever the starting
state, `onResetClicked` ends with the recording stopped, `currentStep`
at 0, all 8 levels and all 8 peaks at the `-100` sentinel, Apply
disabled (and Start re-enabled, Record disabled). -/
theorem reset_accepted_from_every_state (env : AnalyzerEnv ℚ) (st : CalibState ℚ) :
    (onResetClicked env st).currentStep = 0 ∧
    (onResetClicked env st).isRecording = false ∧
    (∀ i : Fin 8, (onResetClicked env st).levels i = -100) ∧
    (∀ i : Fin 8, (onResetClicked env st).peaks i = -100) ∧
    (onResetClicked env st).applyEnabled = false ∧
    (onResetClicked env st).startEnabled = true ∧
    (onResetClicked env st).recordEnabled = false := by
  have hrec : (onResetClicked env st).isRecording = false := by
    unfold onResetClicked
    by_cases h : st.isRecording
    · simpa [h] using stopRecording_isRecording env st h
    · simp [h]
  exact ⟨rfl, hrec, fun i => rfl, fun i => rfl, rfl, rfl, rfl⟩

/-- Claim C6: while recording, one timer tick advances elapsed time by
`RECORDING_TICK_MS` (clamped at `RECORDING_DURATION_MS`); as soon as the
duration is reached the stop-recording action is forced on that tick;
elapsed time never exceeds the 5000 ms duration. -/
theorem recordingTick_fixed_duration (fromDb toDb : ℚ → ℚ) (env : AnalyzerEnv ℚ)
    (st : CalibState ℚ) :
    ((onRecordingTick fromDb toDb env st).recordingElapsedMs =
       if st.isRecording then
         min (st.recordingElapsedMs + RECORDING_TICK_MS) RECORDING_DURATION_MS
       else st.recordingElapsedMs) ∧
    (st.isRecording = true →
       RECORDING_DURATION_MS ≤ st.recordingElapsedMs + RECORDING_TICK_MS →
       (onRecordingTick fromDb toDb env st).isRecording = false) ∧
    (st.recordingElapsedMs ≤ RECORDING_DURATION_MS →
       (onRecordingTick fromDb toDb env st).recordingElapsedMs ≤ RECORDING_DURATION_MS) := by
  by_cases hr : st.isRecording
  · refine ⟨?_, ?_, ?_⟩
    · unfold onRecordingTick
      simp only [hr, Bool.true_eq_false, if_false, if_true]
      by_cases hc : env.capturing <;>
        simp only [hc, Bool.false_eq_true, if_false, if_true] <;>
        split_ifs with hd <;>
        simp [stopRecording_elapsed]
    · intro _ hdur
      unfold onRecordingTick
      simp only [hr, Bool.true_eq_false, if_false, if_true]
      by_cases hc : env.capturing <;>
        simp only [hc, Bool.false_eq_true, if_false, if_true] <;>
        split_ifs with hd <;>
        first
          | exact absurd (le_min hdur (le_refl _)) hd
          | exact stopRecording_isRecording env _ (by simp [hr])
    · intro hle
      have h1 := (by
        unfold onRecordingTick
        simp only [hr, Bool.true_eq_false, if_false, if_true]
        by_cases hc : env.capturing <;>
          simp only [hc, Bool.false_eq_true, if_false, if_true] <;>
          split_ifs with hd <;>
          simp [stopRecording_elapsed] :
        (onRecordingTick fromDb toDb env st).recordingElapsedMs =
          min (st.recordingElapsedMs + RECORDING_TICK_MS) RECORDING_DURATION_MS)
      rw [h1]
      exact min_le_right _ _
  · unfold onRecordingTick
    simp [hr]

/-- Claim C4 (amended): pressing Record while idle (`currentStep = 0`)
or complete (`currentStep = 9`) is a pure no-op apart from the status
message; pressing it while already recording is not a no-op — it is the
Stop action (commit and advance). -/
theorem recordClicked_guard (fromDb toDb : ℚ → ℚ) (env : AnalyzerEnv ℚ)
    (st : CalibState ℚ) :
    (st.currentStep = 0 ∨ st.currentStep = TOTAL_STEPS + 1 →
       onRecordClicked fromDb toDb env st = st) ∧
    (st.isRecording = true → 1 ≤ st.currentStep → st.currentStep ≤ TOTAL_STEPS →
       onRecordClicked fromDb toDb env st = stopRecording env st) := by
  constructor
  · rintro (h | h) <;> unfold onRecordClicked <;>
      rw [if_pos (by simp only [TOTAL_STEPS] at *; omega)]
  · intro hrec h1 h8
    unfold onRecordClicked
    rw [if_neg (by simp only [TOTAL_STEPS] at *; omega), if_pos hrec]

/-- Counterexample to claim C4 as stated: pressing Record while already
recording does change the calibration state — the recording flag drops
and the step advances (it is the Stop half of the toggle). -/
theorem recordClicked_while_recording_changes_state :
    recordingState.isRecording = true ∧
    (onRecordClicked id id qEnv recordingState).isRecording = false ∧
    (onRecordClicked id id qEnv recordingState).currentStep = 4 ∧
    recordingState.currentStep = 3 := by
  exact ⟨rfl, rfl, rfl, rfl⟩

/-- Witness for C4 (amended) at concrete states: the idle no-op and the
recording-toggle behaviour. -/
theorem recordClicked_guard_witness :
    onRecordClicked id id qEnv idleState = idleState ∧
    onRecordClicked id id qEnv recordingState = stopRecording qEnv recordingState := by
  constructor
  · exact (recordClicked_guard id id qEnv idleState).1 (Or.inl rfl)
  · exact (recordClicked_guard id id qEnv recordingState).2 rfl (by decide) (by decide)

/-- Claim C8 (amended): `stopRecording` commits nothing of its own —
`StepRecords[n-1]` keeps exactly the values the ticks accumulated — and
the analyzer-max-peak fallback for a sample-less step appears only in
the reported save message. -/
theorem stop_commits_tick_values (env : AnalyzerEnv ℚ) (st : CalibState ℚ)
    (hr : st.isRecording = true) (h1 : 1 ≤ st.currentStep)
    (h8 : st.currentStep ≤ TOTAL_STEPS) :
    (stopRecording env st).levels = st.levels ∧
    (stopRecording env st).peaks = st.peaks ∧
    (getAt st.peaks (st.currentStep - 1) ≤ -99 →
       saveCurrentLevelReport env st =
         some (getAt st.levels (st.currentStep - 1), env.maxPeakDb)) ∧
    (¬ getAt st.peaks (st.currentStep - 1) ≤ -99 →
       saveCurrentLevelReport env st =
         some (getAt st.levels (st.currentStep - 1), getAt st.peaks (st.currentStep - 1))) := by
  refine ⟨?_, ?_, ?_, ?_⟩
  · unfold stopRecording
    rw [hr]
    simpa using advanceStep_levels { st with isRecording := false }
  · unfold stopRecording
    rw [hr]
    simpa using advanceStep_peaks { st with isRecording := false }
  · intro h
    unfold saveCurrentLevelReport
    rw [if_neg (by unfold TOTAL_STEPS at *; omega)]
    simp only [if_pos h]
  · intro h
    unfold saveCurrentLevelReport
    rw [if_neg (by unfold TOTAL_STEPS at *; omega)]
    simp only [if_neg h]

/-- Counterexample to claim C8 as stated: stopping step 3 with no
samples accumulated (stored peak still `-100`) while the analyzer's max
peak reads `-20` leaves the committed step peak at `-100`; the `-20`
fallback shows up only in the save report. -/
theorem stop_fallback_not_committed :
    (stopRecording qEnv recordingState).peaks = recordingState.peaks ∧
    (stopRecording qEnv recordingState).peaks (2 : Fin 8) = -100 ∧
    qEnv.maxPeakDb = -20 ∧
    saveCurrentLevelReport qEnv recordingState = some (-37, -20) ∧
    ((-100 : ℚ) ≠ -20) := by
  refine ⟨rfl, rfl, rfl, by decide, by norm_num⟩

/-- Witness for C8 (amended) at the concrete recording state. -/
theorem stop_commits_tick_values_witness :
    recordingState.isRecording = true ∧
    (stopRecording qEnv recordingState).levels = recordingState.levels ∧
    (stopRecording qEnv recordingState).peaks = recordingState.peaks ∧
    saveCurrentLevelReport qEnv recordingState =
      some (getAt recordingState.levels 2, qEnv.maxPeakDb) := by
  refine ⟨rfl, ?_, ?_, ?_⟩
  · exact (stop_commits_tick_values qEnv recordingState rfl (by decide) (by decide)).1
  · exact (stop_commits_tick_values qEnv recordingState rfl (by decide) (by decide)).2.1
  · exact (stop_commits_tick_values qEnv recordingState rfl (by decide) (by decide)).2.2.1
      (by decide)

/-- Witness for C6 at a concrete state: at 4900 ms elapsed the next tick
reaches the 5000 ms duration, forces the stop, and stays within the
duration. -/
theorem recordingTick_fixed_duration_witness :
    recordingState.isRecording = true ∧
    (onRecordingTick id id qEnv recordingState).recordingElapsedMs =
      min (recordingState.recordingElapsedMs + RECORDING_TICK_MS) RECORDING_DURATION_MS ∧
    (onRecordingTick id id qEnv recordingState).recordingElapsedMs ≤
      RECORDING_DURATION_MS := by
  refine ⟨rfl, ?_, ?_⟩
  · have h := (recordingTick_fixed_duration id id qEnv recordingState).1
    simpa using h
  · exact (recordingTick_fixed_duration id id qEnv recordingState).2.2 (by decide)

end CalibrationDialog

namespace CalibrationDialog

variable {F : Type} [LinearOrderedField F]

/-- Outcome of `CalibrationDialog::onApplyClicked`, abstracting the
status message / filter application it ends in. `incomplete k` is the
"Step k has no data" path. -/
inductive ApplyOutcome (F : Type) where
  | notFinished : ApplyOutcome F
  | noSource : ApplyOutcome F
  | incomplete : Nat → ApplyOutcome F
  | applied : F → F → F → ApplyOutcome F

/-- Whether the outcome reached the filter-application stage. -/
def ApplyOutcome.isApplied : ApplyOutcome F → Bool
  | .applied _ _ _ => true
  | _ => false

/-- The `clampf` helper of the dialog. -/
def clampf (v lo hi : F) : F := max lo (min v hi)

/-- The validation loop of `onApplyClicked`: scan indices `i, i+1, ...`
(the source starts at `i = 1`, exempting step 1) and report the first
step number `i + 1` whose level still holds the sentinel
(`levels[i] <= -99.0`). -/
def applyCheckLoop (levels : Fin 8 → F) (i : Nat) : Option Nat :=
  if h : i < 8 then
    if levels ⟨i, h⟩ ≤ -99 then some (i + 1)
    else applyCheckLoop levels (i + 1)
  else none
termination_by 8 - i

/-- Source `CalibrationDialog::onApplyClicked`: refuses before completion and
without a source, then validates steps 2..8 and derives
gain/threshold/ratio from the recorded levels and peaks. -/
def onApplyClicked (sourceValid : Bool) (st : CalibState F) : ApplyOutcome F :=
  if st.currentStep ≤ TOTAL_STEPS then .notFinished
  else if sourceValid = false then .noSource
  else
    match applyCheckLoop st.levels 1 with
    | some k => .incomplete k
    | none =>
      let normal := st.levels 3
      let steady := st.levels 4
      let energetic := st.levels 5
      let avgProgram := (normal + steady + energetic) / 3
      let loudPeak := max (st.peaks 3) (max (st.peaks 4) (st.peaks 5))
      let dynamic := energetic - normal
      let targetRms : F := -18
      let gainDb0 := clampf (targetRms - avgProgram) (-18) 18
      let predictedPeakAfterGain := loudPeak + gainDb0
      let gainDb1 :=
        if -3 < predictedPeakAfterGain then gainDb0 - (predictedPeakAfterGain + 3)
        else gainDb0
      let gainDb := clampf gainDb1 (-18) 18
      let ratio : F := if 14 < dynamic then 6 else if dynamic < 8 then 3 else 4
      let thresholdDb := clampf (avgProgram - 5) (-45) (-10)
      .applied gainDb thresholdDb ratio

/-- The validation loop finds nothing when every slot from `i` on has
real data. -/
theorem applyCheckLoop_eq_none (levels : Fin 8 → F) :
    ∀ (n i : Nat), 8 - i ≤ n → (∀ k : Fin 8, i ≤ k.val → ¬ levels k ≤ -99) →
      applyCheckLoop levels i = none := by
  intro n
  induction n with
  | zero =>
    intro i hi _
    rw [applyCheckLoop]
    rw [dif_neg (by omega)]
  | succ n ih =>
    intro i hi h
    rw [applyCheckLoop]
    split
    · rename_i hlt
      rw [if_neg (h ⟨i, hlt⟩ (le_refl i))]
      exact ih (i + 1) (by omega) (fun k hk => h k (by omega))
    · rfl

/-- The validation loop reports exactly the first sentinel slot at or
after `i`. -/
theorem applyCheckLoop_eq_some (levels : Fin 8 → F) (j : Fin 8)
    (hsent : levels j ≤ -99) :
    ∀ (n i : Nat), 8 - i ≤ n → i ≤ j.val →
      (∀ k : Fin 8, i ≤ k.val → k.val < j.val → ¬ levels k ≤ -99) →
      applyCheckLoop levels i = some (j.val + 1) := by
  intro n
  induction n with
  | zero =>
    intro i hi hij _
    exact absurd (lt_of_le_of_lt hij j.isLt) (by omega)
  | succ n ih =>
    intro i hi hij hfirst
    have hlt : i < 8 := lt_of_le_of_lt hij j.isLt
    rw [applyCheckLoop]
    rw [dif_pos hlt]
    by_cases hij' : i = j.val
    · have hj : (⟨i, hlt⟩ : Fin 8) = j := Fin.ext hij'
      rw [hj, if_pos hsent, hij']
    · have hne : ¬ levels ⟨i, hlt⟩ ≤ -99 :=
        hfirst ⟨i, hlt⟩ (le_refl i) (by show i < j.val; omega)
      rw [if_neg hne]
      exact ih (i + 1) (by omega) (by omega) (fun k hk => hfirst k (by omega))

/-- Claim C1: with the session complete and a valid source, the
parameter derivation fails naming the first step among 2..8 whose level
still holds the `-100` sentinel (earlier steps among 2..8 holding real
data), and succeeds when only step 1 holds the sentinel — step 1 is
exempt from the completeness check. -/
theorem apply_completeness_check (st : CalibState ℚ)
    (hstep : st.currentStep = TOTAL_STEPS + 1) :
    (∀ j : Fin 8, 1 ≤ j.val → st.levels j = -100 →
       (∀ k : Fin 8, 1 ≤ k.val → k.val < j.val → -99 < st.levels k) →
       onApplyClicked true st = .incomplete (j.val + 1)) ∧
    ((st.levels 0 = -100 ∧ ∀ i : Fin 8, 1 ≤ i.val → -99 < st.levels i) →
       (onApplyClicked true st).isApplied = true) := by
  have hguard : ¬ st.currentStep ≤ TOTAL_STEPS := by
    simp only [TOTAL_STEPS] at *
    omega
  constructor
  · intro j hj hsent hfirst
    unfold onApplyClicked
    rw [if_neg hguard]
    rw [if_neg (by simp)]
    have hloop : applyCheckLoop st.levels 1 = some (j.val + 1) :=
      applyCheckLoop_eq_some st.levels j (by rw [hsent]; norm_num) 8 1 (by omega) hj
        (fun k hk1 hkj => not_le_of_lt (hfirst k hk1 hkj))
    rw [hloop]
  · rintro ⟨_, hdata⟩
    unfold onApplyClicked
    rw [if_neg hguard]
    rw [if_neg (by simp)]
    have hloop : applyCheckLoop st.levels 1 = none :=
      applyCheckLoop_eq_none st.levels 8 1 (by omega)
        (fun k hk => not_le_of_lt (hdata k hk))
    rw [hloop]
    rfl

/-- A completed session whose step 4 (index 3) still holds the sentinel
while every other step recorded `-30` dB. -/
def completeMissing4 : CalibState ℚ :=
  { currentStep := 9, isRecording := false,
    levels := fun i => if i.val = 3 then -100 else -30, peaks := fun _ => -12,
    recordingElapsedMs := 5000, recordingRmsSumLinear := 0, recordingRmsSamples := 0,
    recordingPeakMaxDb := -100, startEnabled := false, recordEnabled := false,
    applyEnabled := true }

/-- A completed session where only step 1 (the noise floor) holds the
sentinel. -/
def completeOnlyStep1 : CalibState ℚ :=
  { currentStep := 9, isRecording := false,
    levels := fun i => if i.val = 0 then -100 else -30, peaks := fun _ => -12,
    recordingElapsedMs := 5000, recordingRmsSumLinear := 0, recordingRmsSamples := 0,
    recordingPeakMaxDb := -100, startEnabled := false, recordEnabled := false,
    applyEnabled := true }

/-- Witness for C1: the spec's own test vector — step 4 missing fails
naming step 4; only step 1 missing succeeds. -/
theorem apply_completeness_check_witness :
    onApplyClicked true completeMissing4 = ApplyOutcome.incomplete 4 ∧
    (onApplyClicked true completeOnlyStep1).isApplied = true := by
  constructor
  · exact (apply_completeness_check completeMissing4 rfl).1 ⟨3, by omega⟩ (by decide)
      (by decide) (by decide)
  · exact (apply_completeness_check completeOnlyStep1 rfl).2 ⟨by decide, by decide⟩

end CalibrationDialog

namespace AudioAnalyzer

/-- The `1e-5` linear floor is `10 ^ (-5)`. -/
theorem floor_as_rpow : (1e-5 : ℝ) = (10 : ℝ) ^ ((-5 : ℝ)) := by
  have h : ((-5 : ℝ)) = ((-5 : ℤ) : ℝ) := by norm_num
  rw [h, Real.rpow_intCast]
  norm_num

/-- Source `fromDB` lands below the floor exactly for inputs below `-100`. -/
theorem fromDB_lt_floor_iff (x : ℝ) : fromDB x < 1e-5 ↔ x < -100 := by
  unfold fromDB
  rw [floor_as_rpow, Real.rpow_lt_rpow_left_iff (by norm_num : (1 : ℝ) < 10)]
  constructor <;> intro h <;> linarith

/-- Claim C3 (amended): in exact real arithmetic the round trip
`toDB (fromDB x) = x` holds for all `x ≥ -100` (not for all finite `x`),
`fromDB (toDB a) = a` holds for all `a ≥ 1e-5`, and `toDB` returns
`-100` for every amplitude below `1e-5`, including `0`. -/
theorem decibel_roundtrips :
    (∀ x : ℝ, -100 ≤ x → toDB (fromDB x) = x) ∧
    (∀ a : ℝ, 1e-5 ≤ a → fromDB (toDB a) = a) ∧
    (∀ a : ℝ, a < 1e-5 → toDB a = -100) := by
  refine ⟨?_, ?_, ?_⟩
  · intro x hx
    unfold toDB
    rw [if_neg (by rw [fromDB_lt_floor_iff]; linarith)]
    unfold fromDB
    rw [Real.logb_rpow (by norm_num) (by norm_num)]
    ring
  · intro a ha
    have ha0 : (0 : ℝ) < a := lt_of_lt_of_le (by norm_num) ha
    unfold toDB
    rw [if_neg (not_lt.mpr ha)]
    unfold fromDB
    have h : 20 * Real.logb 10 a / 20 = Real.logb 10 a := by ring
    rw [h, Real.rpow_logb (by norm_num) (by norm_num) ha0]
  · intro a ha
    unfold toDB
    rw [if_pos ha]

/-- Witness for C3 (amended) at `x = 0`, `a = 1` and `a = 0`. -/
theorem decibel_roundtrips_witness :
    toDB (fromDB 0) = 0 ∧ fromDB (toDB 1) = 1 ∧ toDB 0 = -100 :=
  ⟨decibel_roundtrips.1 0 (by norm_num), decibel_roundtrips.2.1 1 (by norm_num),
   decibel_roundtrips.2.2 0 (by norm_num)⟩

/-- Counterexample to C3 as stated: at the finite input `x = -120` the
round trip returns the `-100` floor, 20 dB away from `x` — far outside
any floating-point tolerance (and exactly what the `float` code does,
since `1e-6 < 1e-5`). -/
theorem roundtrip_fails_below_floor :
    toDB (fromDB (-120)) = -100 ∧ ((-100 : ℝ) ≠ -120) := by
  constructor
  · unfold toDB
    rw [if_pos ((fromDB_lt_floor_iff (-120)).mpr (by norm_num))]
  · norm_num

/-- Source `fromDB (-40) = 1/100`. -/
theorem fromDB_neg40 : fromDB (-40) = 1 / 100 := by
  unfold fromDB
  have h : ((-40 : ℝ)) / 20 = ((-2 : ℤ) : ℝ) := by norm_num
  rw [h, Real.rpow_intCast]
  norm_num

/-- Source `fromDB (-20) = 1/10`. -/
theorem fromDB_neg20 : fromDB (-20) = 1 / 10 := by
  unfold fromDB
  have h : ((-20 : ℝ)) / 20 = ((-1 : ℤ) : ℝ) := by norm_num
  rw [h, Real.rpow_intCast]
  norm_num

/-- The energy-weighted average of `-40` dB and `-20` dB is not the
naive dB average `-30`: `toDB ((fromDB (-40) + fromDB (-20)) / 2)` is
`20 * log10 (11/200)`, and `(11/200)^2 = 121/40000 ≠ 1/1000`, so the
log cannot be `-3/2`. -/
theorem toDB_mean_neg40_neg20_ne_neg30 :
    toDB ((fromDB (-40) + fromDB (-20)) / 2) ≠ -30 := by
  rw [fromDB_neg40, fromDB_neg20]
  have hm : ((1 : ℝ) / 100 + 1 / 10) / 2 = 11 / 200 := by norm_num
  rw [hm]
  unfold toDB
  rw [if_neg (by norm_num)]
  intro hcontra
  have hlog : Real.logb 10 (11 / 200) = -3 / 2 := by linarith
  have hml : ((11 : ℝ) / 200) = (10 : ℝ) ^ ((-3 / 2 : ℝ)) := by
    conv_lhs => rw [← Real.rpow_logb (by norm_num : (0 : ℝ) < 10)
      (by norm_num : (10 : ℝ) ≠ 1) (by norm_num : (0 : ℝ) < 11 / 200)]
    rw [hlog]
  have hsq : ((11 : ℝ) / 200) ^ (2 : ℕ) = (10 : ℝ) ^ ((-3 : ℝ)) := by
    rw [hml, ← Real.rpow_natCast ((10 : ℝ) ^ ((-3 / 2 : ℝ))) 2,
      ← Real.rpow_mul (by norm_num)]
    norm_num
  have h3 : (10 : ℝ) ^ ((-3 : ℝ)) = 1 / 1000 := by
    have h : ((-3 : ℝ)) = ((-3 : ℤ) : ℝ) := by norm_num
    rw [h, Real.rpow_intCast]
    norm_num
  rw [h3] at hsq
  norm_num at hsq

end AudioAnalyzer

namespace CalibrationDialog

variable {F : Type} [LinearOrderedField F]

/-- Reading the slot just written by `updateAt`. -/
theorem updateAt_get (f : Fin 8 → F) (i : Nat) (h : i < 8) (v : F) :
    updateAt f i v ⟨i, h⟩ = v := by
  unfold updateAt
  rw [dif_pos h]
  exact Function.update_same _ _ _

/-- Source `stopRecording` never writes the level array. -/
theorem stopRecording_levels (env : AnalyzerEnv F) (st : CalibState F) :
    (stopRecording env st).levels = st.levels := by
  unfold stopRecording
  split_ifs
  · rfl
  · simpa using advanceStep_levels { st with isRecording := false }

/-- Analyzer readings for one recording tick whose smoothed RMS reads
`r` dB (capture active). -/
def tickEnv (r : ℝ) : AnalyzerEnv ℝ :=
  { capturing := true, rmsDb := r, peakDb := r, maxPeakDb := r }

/-- A recording window observed tick by tick: fold `onRecordingTick`
(with the analyzer's decibel conversions) over the per-tick RMS-dB
readings. -/
noncomputable def runCapturedTicks (rs : List ℝ) (st : CalibState ℝ) : CalibState ℝ :=
  rs.foldl (fun s r => onRecordingTick AudioAnalyzer.fromDB AudioAnalyzer.toDB (tickEnv r) s) st

/-- After one tick with reading `r`, the step's level slot holds
`toDB((sum + fromDB r) / (n + 1))` — whether or not that tick forced the
stop. -/
theorem tick_levels_after (r : ℝ) (st : CalibState ℝ) (h0 : st.isRecording = true)
    (h1 : 1 ≤ st.currentStep) (h8 : st.currentStep ≤ 8) :
    (onRecordingTick AudioAnalyzer.fromDB AudioAnalyzer.toDB (tickEnv r) st).levels
        ⟨st.currentStep - 1, by omega⟩ =
      AudioAnalyzer.toDB ((st.recordingRmsSumLinear + AudioAnalyzer.fromDB r) /
        ((st.recordingRmsSamples + 1 : ℕ) : ℝ)) := by
  unfold onRecordingTick
  simp only [h0, Bool.true_eq_false, if_false, tickEnv, if_true]
  split
  · rw [stopRecording_levels]
    dsimp only
    rw [updateAt_get]
    rw [if_pos (Nat.succ_pos _)]
  · dsimp only
    rw [updateAt_get]
    rw [if_pos (Nat.succ_pos _)]

/-- A tick that cannot reach the duration leaves the recording running
and advances the accumulators by exactly one reading. -/
theorem tick_fields_no_stop (r : ℝ) (st : CalibState ℝ) (h0 : st.isRecording = true)
    (hnostop : st.recordingElapsedMs + RECORDING_TICK_MS < RECORDING_DURATION_MS) :
    ((onRecordingTick AudioAnalyzer.fromDB AudioAnalyzer.toDB (tickEnv r) st).isRecording
        = true) ∧
    ((onRecordingTick AudioAnalyzer.fromDB AudioAnalyzer.toDB (tickEnv r) st).currentStep
        = st.currentStep) ∧
    ((onRecordingTick AudioAnalyzer.fromDB AudioAnalyzer.toDB (tickEnv r) st).recordingElapsedMs
        = st.recordingElapsedMs + RECORDING_TICK_MS) ∧
    ((onRecordingTick AudioAnalyzer.fromDB AudioAnalyzer.toDB (tickEnv r) st).recordingRmsSumLinear
        = st.recordingRmsSumLinear + AudioAnalyzer.fromDB r) ∧
    ((onRecordingTick AudioAnalyzer.fromDB AudioAnalyzer.toDB (tickEnv r) st).recordingRmsSamples
        = st.recordingRmsSamples + 1) ∧
    ((onRecordingTick AudioAnalyzer.fromDB AudioAnalyzer.toDB (tickEnv r) st).levels
        = updateAt st.levels (st.currentStep - 1)
            (AudioAnalyzer.toDB ((st.recordingRmsSumLinear + AudioAnalyzer.fromDB r) /
              ((st.recordingRmsSamples + 1 : ℕ) : ℝ)))) := by
  have hmin : min (st.recordingElapsedMs + RECORDING_TICK_MS) RECORDING_DURATION_MS
      = st.recordingElapsedMs + RECORDING_TICK_MS := min_eq_left (le_of_lt hnostop)
  unfold onRecordingTick
  simp only [h0, Bool.true_eq_false, if_false, tickEnv, if_true, hmin]
  rw [if_neg (by omega)]
  refine ⟨rfl, rfl, rfl, rfl, rfl, ?_⟩
  dsimp only
  rw [if_pos (Nat.succ_pos _)]

/-- The committed level after a window of captured ticks is the
linear-domain running average of all readings, converted back to dB. -/
theorem runTicks_committed_level (rs : List ℝ) :
    ∀ (st : CalibState ℝ) (h0 : st.isRecording = true) (h1 : 1 ≤ st.currentStep)
      (h8 : st.currentStep ≤ 8)
      (hdur : st.recordingElapsedMs + RECORDING_TICK_MS * rs.length ≤ RECORDING_DURATION_MS)
      (hne : rs ≠ []),
      (runCapturedTicks rs st).levels ⟨st.currentStep - 1, by omega⟩ =
        AudioAnalyzer.toDB ((st.recordingRmsSumLinear + (rs.map AudioAnalyzer.fromDB).sum) /
          ((st.recordingRmsSamples + rs.length : ℕ) : ℝ)) := by
  induction rs with
  | nil => intro st _ _ _ _ hne; exact absurd rfl hne
  | cons r rs ih =>
    intro st h0 h1 h8 hdur hne
    have hstep : runCapturedTicks (r :: rs) st =
        runCapturedTicks rs (onRecordingTick AudioAnalyzer.fromDB AudioAnalyzer.toDB
          (tickEnv r) st) := rfl
    by_cases hnil : rs = []
    · subst hnil
      rw [hstep]
      have h := tick_levels_after r st h0 h1 h8
      refine h.trans ?_
      congr 1
      simp
    · have hlen : 1 ≤ rs.length := List.length_pos.mpr hnil
      have hnostop : st.recordingElapsedMs + RECORDING_TICK_MS < RECORDING_DURATION_MS := by
        simp only [List.length_cons, RECORDING_TICK_MS, RECORDING_DURATION_MS] at hdur ⊢
        omega
      obtain ⟨f0, f1, f2, f3, f4, _⟩ := tick_fields_no_stop r st h0 hnostop
      rw [hstep]
      have hmain := ih (onRecordingTick AudioAnalyzer.fromDB AudioAnalyzer.toDB (tickEnv r) st)
        f0 (by rw [f1]; exact h1) (by rw [f1]; exact h8)
        (by
          rw [f2]
          simp only [List.length_cons, RECORDING_TICK_MS, RECORDING_DURATION_MS] at hdur ⊢
          omega)
        hnil
      have hidx : (⟨(onRecordingTick AudioAnalyzer.fromDB AudioAnalyzer.toDB (tickEnv r)
            st).currentStep - 1, by rw [f1]; omega⟩ : Fin 8)
          = ⟨st.currentStep - 1, by omega⟩ := by
        simp only [Fin.mk.injEq]
        rw [f1]
      rw [hidx, f3, f4] at hmain
      refine hmain.trans ?_
      congr 1
      push_cast [List.length_cons, List.map_cons, List.sum_cons]
      ring

end CalibrationDialog

namespace CalibrationDialog

/-- Claim C2: the per-step average committed after `n` captured ticks
with RMS-dB readings `r_1..r_n` equals
`toDB((fromDB r_1 + ... + fromDB r_n) / n)` — averaging in linear
amplitude space, converted back to dB — and for the readings
`[-40, -20]` that value is not the naive dB average `-30`. -/
theorem step_average_energy_weighted :
    (∀ (st : CalibState ℝ) (rs : List ℝ) (h0 : st.isRecording = true)
       (h1 : 1 ≤ st.currentStep) (h8 : st.currentStep ≤ 8)
       (hsum : st.recordingRmsSumLinear = 0) (hn : st.recordingRmsSamples = 0)
       (hdur : st.recordingElapsedMs + RECORDING_TICK_MS * rs.length ≤ RECORDING_DURATION_MS)
       (hne : rs ≠ []),
       (runCapturedTicks rs st).levels ⟨st.currentStep - 1, by omega⟩ =
         AudioAnalyzer.toDB ((rs.map AudioAnalyzer.fromDB).sum / (rs.length : ℝ))) ∧
    AudioAnalyzer.toDB ((AudioAnalyzer.fromDB (-40) + AudioAnalyzer.fromDB (-20)) / 2) ≠ -30 := by
  constructor
  · intro st rs h0 h1 h8 hsum hn hdur hne
    have h := runTicks_committed_level rs st h0 h1 h8 hdur hne
    rw [hsum, hn] at h
    refine h.trans ?_
    congr 1
    push_cast
    ring
  · exact AudioAnalyzer.toDB_mean_neg40_neg20_ne_neg30

/-- A freshly armed recording window for step 1 (the state
`startRecording` produces just before its first tick), over `ℝ`. -/
noncomputable def realRecordingStart : CalibState ℝ :=
  { currentStep := 1, isRecording := true, levels := fun _ => -100,
    peaks := fun _ => -100, recordingElapsedMs := 0, recordingRmsSumLinear := 0,
    recordingRmsSamples := 0, recordingPeakMaxDb := -100, startEnabled := false,
    recordEnabled := true, applyEnabled := false }

/-- Witness for C2 at the spec's test vector: two ticks reading `-40`
then `-20` dB commit `toDB(mean(fromDB(-40), fromDB(-20)))`, which is
not `-30`. -/
theorem step_average_energy_weighted_witness :
    (runCapturedTicks [-40, -20] realRecordingStart).levels ⟨0, by omega⟩ =
      AudioAnalyzer.toDB ((AudioAnalyzer.fromDB (-40) + AudioAnalyzer.fromDB (-20)) / 2) ∧
    AudioAnalyzer.toDB ((AudioAnalyzer.fromDB (-40) + AudioAnalyzer.fromDB (-20)) / 2) ≠ -30 := by
  constructor
  · have h := step_average_energy_weighted.1 realRecordingStart [-40, -20] rfl
      (by norm_num [realRecordingStart]) (by norm_num [realRecordingStart]) rfl rfl
      (by norm_num [realRecordingStart, RECORDING_TICK_MS, RECORDING_DURATION_MS])
      (by simp)
    have h2 : AudioAnalyzer.toDB ((([-40, -20] : List ℝ).map AudioAnalyzer.fromDB).sum /
          ((([-40, -20] : List ℝ).length : ℕ) : ℝ)) =
        AudioAnalyzer.toDB ((AudioAnalyzer.fromDB (-40) + AudioAnalyzer.fromDB (-20)) / 2) := by
      congr 1
      norm_num
    exact h.trans h2
  · exact step_average_energy_weighted.2

end CalibrationDialog
